import Mathlib

set_option maxRecDepth 100000

/-!
Shallow embedding of the submission-and-delivery pipeline of the
ctpat-inspection-app repository, and theorems settling the frozen claims
about it.

Two backend variants exist in the source and both are modelled where a
claim cites them:

* the SQLite variant (`nodejs/src/routes/inspections.js`, which also
  contains the email routes and the inline `EmailQueueService`, plus
  `nodejs/src/services/EmailService.js`): the delivery queue
  (`email_queue` table), its `getPendingEmails` / `markSent` /
  `markFailed` / `getQueueStats` operations and the dispatcher
  `processQueuedEmails`;
* the Mongo variant (`src/unnamed/part_004` routes and the
  `src/unnamed/part_006` Mongoose schema): idempotent POST, the PUT
  route with its `validateRequest(inspectionSchema)` middleware
  (`stripUnknown: true`), the handler's transition-validation logic, and
  the pre-save hook stamping `completedAt` and appending audit entries.

Timestamps are modelled as `Nat`, identifiers as `Nat`, and the database
tables as lists of rows.  SQL `UPDATE ... WHERE` becomes `List.map` with a
guard, `SELECT ... WHERE ... ORDER BY ... LIMIT` becomes
filter-sort-take, a JS `try/catch` around storage becomes a match on
`Except`, and the enforced foreign key of the SQLite schema
(`PRAGMA foreign_keys = ON`; `email_queue.inspectionId REFERENCES
inspections`, NO ACTION) becomes an explicit dependent-rows check in the
DELETE route.
-/

namespace Ctpat

/-! ## Delivery queue (SQLite variant) -/

/-- Status of a delivery job.  The source only ever writes the strings
`pending`, `sent` and `failed` into the `email_queue.status` column;
`in_flight` is included because the specification speaks about it, so
that statements mentioning it are expressible. -/
inductive JobStatus
  | pending
  | in_flight
  | sent
  | failed
deriving DecidableEq, Repr

/-- One row of the `email_queue` table, as inserted by
`EmailQueueService.queueEmail` (columns `emailId`, `inspectionId`,
`recipientEmail`, `subject`, `body`, `status`, `metadata`, `createdAt`,
`retryCount`, plus `error` and `sentAt` written by the mark operations). -/
structure EmailJob where
  emailId : Nat
  inspectionId : Nat
  recipientEmail : String
  subject : String
  body : String
  status : JobStatus
  metadata : Option String
  createdAt : Nat
  retryCount : Nat
  error : Option String
  sentAt : Option Nat
deriving DecidableEq, Repr

/-- The `email_queue` table. -/
abbrev QueueState := List EmailJob

/-- Insertion step for sorting by `createdAt` (embedding of SQL
`ORDER BY createdAt ASC`). -/
def insertByCreatedAt (j : EmailJob) : List EmailJob → List EmailJob
  | [] => [j]
  | k :: ks =>
      if j.createdAt ≤ k.createdAt then j :: k :: ks
      else k :: insertByCreatedAt j ks

/-- Sort a list of jobs by ascending `createdAt` (SQL
`ORDER BY createdAt ASC`; the order among equal timestamps is not
specified by SQL, any consistent choice is a faithful model). -/
def sortByCreatedAt : List EmailJob → List EmailJob
  | [] => []
  | j :: js => insertByCreatedAt j (sortByCreatedAt js)

/-- `EmailQueueService.getPendingEmails(limit)`:
`SELECT * FROM email_queue WHERE status = 'pending'
 ORDER BY createdAt ASC LIMIT ?`.  A pure read: it performs no UPDATE. -/
def getPendingEmails (st : QueueState) (limit : Nat) : List EmailJob :=
  (sortByCreatedAt (st.filter (fun j => decide (j.status = JobStatus.pending)))).take limit

/-- The claim step of the specification (`claimBatch`) corresponds in the
source to `EmailQueueService.getPendingEmails`, which is a SELECT and
writes nothing; the post-call queue state is therefore the unchanged
input state, made explicit here as the second component. -/
def claimBatch (st : QueueState) (max : Nat) : List EmailJob × QueueState :=
  (getPendingEmails st max, st)

/-- `EmailQueueService.markSent(emailId)`:
`UPDATE email_queue SET status = 'sent', sentAt = ? WHERE emailId = ?`.
The UPDATE carries no condition on the current status. -/
def markSent (st : QueueState) (emailId : Nat) (now : Nat) : QueueState :=
  st.map (fun j =>
    if j.emailId = emailId then
      { j with status := JobStatus.sent, sentAt := some now }
    else j)

/-- `EmailQueueService.markFailed(emailId, errorMessage)`:
`UPDATE email_queue SET status = 'failed', error = ?,
 retryCount = retryCount + 1 WHERE emailId = ?`, with the message
truncated to 255 characters (`errorMessage.substring(0, 255)`).
The status is set to `failed` unconditionally; there is no branch
returning the job to `pending`. -/
def markFailed (st : QueueState) (emailId : Nat) (errorMessage : String) : QueueState :=
  st.map (fun j =>
    if j.emailId = emailId then
      { j with status := JobStatus.failed,
               error := some (errorMessage.take 255),
               retryCount := j.retryCount + 1 }
    else j)

/-- Result shape of `EmailQueueService.getQueueStats`. -/
structure QueueStats where
  pending : Nat
  sent : Nat
  failed : Nat
  total : Nat
deriving DecidableEq, Repr

/-- Count of rows with a given status (`SELECT COUNT(*) ... WHERE status = ?`). -/
def countStatus (st : QueueState) (s : JobStatus) : Nat :=
  (st.filter (fun j => decide (j.status = s))).length

/-- `EmailQueueService.getQueueStats()`: three COUNT queries and their sum. -/
def getQueueStats (st : QueueState) : QueueStats :=
  { pending := countStatus st JobStatus.pending
    sent := countStatus st JobStatus.sent
    failed := countStatus st JobStatus.failed
    total := countStatus st JobStatus.pending + countStatus st JobStatus.sent
              + countStatus st JobStatus.failed }

/-- The `try/catch` wrapper of `getPendingEmails`: if the storage layer
throws, the error is swallowed and the empty list returned. -/
def getPendingEmailsSafe (db : Except String QueueState) (limit : Nat) : List EmailJob :=
  match db with
  | Except.error _ => []
  | Except.ok st => getPendingEmails st limit

/-- The `try/catch` wrapper of `getQueueStats`: if the storage layer
throws, the error is swallowed and all-zero counts returned. -/
def getQueueStatsSafe (db : Except String QueueState) : QueueStats :=
  match db with
  | Except.error _ => { pending := 0, sent := 0, failed := 0, total := 0 }
  | Except.ok st => getQueueStats st

/-- Result shape of `EmailService.processQueuedEmails`. -/
structure DispatchResult where
  success : Bool
  sent : Nat
  failed : Nat
deriving DecidableEq, Repr

/-- One iteration of the dispatcher loop body of
`EmailService.processQueuedEmails`: attempt delivery of job `j`
(outcome given by the oracle `sendOk`, error text by `errText`); on
success call `markSent`, on error call `markFailed` — with the message
`Max retries exceeded` when `retryCount` is 3 or more, the transport
error text otherwise.  Note that both failure branches call `markFailed`. -/
def dispatchJob (sendOk : Nat → Bool) (errText : Nat → String) (now : Nat)
    (acc : QueueState × Nat × Nat) (j : EmailJob) : QueueState × Nat × Nat :=
  let st := acc.1
  let s := acc.2.1
  let f := acc.2.2
  if sendOk j.emailId then
    (markSent st j.emailId now, s + 1, f)
  else
    if j.retryCount < 3 then
      (markFailed st j.emailId (errText j.emailId), s, f + 1)
    else
      (markFailed st j.emailId "Max retries exceeded", s, f + 1)

/-- `EmailService.processQueuedEmails(limit)` (the Dispatcher `runBatch`):
if SMTP is not configured, short-circuit with `{success:false, sent:0,
failed:0}` before touching the queue; otherwise fetch the pending batch
and process each job, counting successes and failures. -/
def processQueuedEmails (isConfigured : Bool) (sendOk : Nat → Bool)
    (errText : Nat → String) (limit : Nat) (st : QueueState) (now : Nat) :
    QueueState × DispatchResult :=
  if !isConfigured then
    (st, { success := false, sent := 0, failed := 0 })
  else
    let pendingEmails := getPendingEmails st limit
    if pendingEmails.length = 0 then
      (st, { success := true, sent := 0, failed := 0 })
    else
      let r := pendingEmails.foldl (dispatchJob sendOk errText now) (st, 0, 0)
      (r.1, { success := true, sent := r.2.1, failed := r.2.2 })

/-! ## Inspection records -/

/-- Lifecycle status of an inspection record (`draft`, `submitted`,
`archived` in both the Mongoose schema enum and the SQLite rows). -/
inductive RStatus
  | draft
  | submitted
  | archived
deriving DecidableEq, Repr

/-- The string stored for a record status. -/
def statusString : RStatus → String
  | RStatus.draft => "draft"
  | RStatus.submitted => "submitted"
  | RStatus.archived => "archived"

/-- One checklist item (`inspectionPointSchema`: `id`, `title`,
`description`, `checked`). -/
structure InspectionPoint where
  id : Nat
  title : String
  description : String
  checked : Bool
deriving DecidableEq, Repr

/-- Number of checked items of a checklist. -/
def countChecked (points : List InspectionPoint) : Nat :=
  (points.filter (fun p => p.checked)).length

/-- The derived completion value, `Math.round((checked / total) * 100)`:
the Mongoose virtual `completionPercentage` guards the empty checklist
with `0`, and the SQLite POST handler computes the same expression for
the checklists it inserts.  For nonnegative `x`, JS `Math.round(x)` is
`⌊x + 1/2⌋`, and `⌊100 * k / n + 1/2⌋ = (200 * k + n) / (2 * n)` in
integer division (see `completionPercentage_eq_floor`). -/
def completionPercentage (points : List InspectionPoint) : Nat :=
  if points.length = 0 then 0
  else (200 * countChecked points + points.length) / (2 * points.length)

/-- One entry of a record's `auditLog` array (`action`, `timestamp`,
`status`, `details`; the pre-save hook pushes `action`/`timestamp`/
`status`, the PUT handler's PDF branch pushes `action`/`timestamp`/
`details`). -/
structure AuditEntry where
  action : String
  timestamp : Nat
  status : Option RStatus
  details : Option String
deriving DecidableEq, Repr

/-- An inspection document of the Mongo variant (`src/unnamed/part_006`).
Scalar form fields that no claim mentions (seal number, names, date,
time, checkbox flags, recipient email, signature ids) are carried by
`truckNumber`/`trailerNumber`/`notes` representatives and omitted
otherwise; they are copied verbatim by every modelled operation and play
no role in any claim. -/
structure Inspection where
  inspectionId : Nat
  idempotencyKey : Option String
  truckNumber : String
  trailerNumber : String
  inspectionPoints : List InspectionPoint
  status : RStatus
  completedAt : Option Nat
  auditLog : List AuditEntry
  pdfStoragePath : Option String
  pdfPublicUrl : Option String
  notes : String
  createdAt : Nat
deriving DecidableEq, Repr

/-- The client payload accepted by the Joi `inspectionSchema` (with
`stripUnknown: true`, so fields outside the schema — in particular
`completedAt` and, in the Mongo variant, `status` — never reach the
handler). -/
structure Payload where
  truckNumber : String
  trailerNumber : String
  inspectionPoints : List InspectionPoint
  notes : String
deriving DecidableEq, Repr

/-- Constructing `new Inspection({...inspectionData, idempotencyKey,
status})` with the schema defaults applied: `completedAt` defaults to
`Date.now` (the construction time), `auditLog` to the empty array. -/
def newInspection (id : Nat) (data : Payload) (key : Option String)
    (st : RStatus) (now : Nat) : Inspection :=
  { inspectionId := id
    idempotencyKey := key
    truckNumber := data.truckNumber
    trailerNumber := data.trailerNumber
    inspectionPoints := data.inspectionPoints
    status := st
    completedAt := some now
    auditLog := []
    pdfStoragePath := none
    pdfPublicUrl := none
    notes := data.notes
    createdAt := now }

/-- The `inspectionSchema.pre('save')` hook: stamp `completedAt` when the
status is `submitted` and `completedAt` is not yet set, then append an
audit entry (`created` for a new document, `modified` otherwise) carrying
the current status.  The transition-validation block of the hook is a
no-op in the source (its body is commentary only). -/
def preSave (isNew : Bool) (doc : Inspection) (now : Nat) : Inspection :=
  let doc :=
    if doc.status = RStatus.submitted ∧ doc.completedAt = none then
      { doc with completedAt := some now }
    else doc
  { doc with
      auditLog := doc.auditLog ++
        [{ action := if isNew then "created" else "modified"
           timestamp := now
           status := some doc.status
           details := none }] }

/-- Creating and saving a fresh document (`new Inspection(...)` followed
by `.save()`, which runs the pre-save hook with `isNew = true`). -/
def saveNew (id : Nat) (data : Payload) (key : Option String)
    (st : RStatus) (now : Nat) : Inspection :=
  preSave true (newInspection id data key st now) now

/-- The Mongo collection of inspection documents. -/
structure MongoDb where
  records : List Inspection
deriving DecidableEq, Repr

/-- `checkDuplicateSubmission(idempotencyKey)`: `null` without a key,
otherwise `Inspection.findOne({ idempotencyKey })`. -/
def checkDuplicateSubmission (db : MongoDb) (key : Option String) : Option Inspection :=
  match key with
  | none => none
  | some k => db.records.find? (fun r => decide (r.idempotencyKey = some k))

/-- Response data of `POST /api/inspections` relevant to the claims. -/
structure PostResult where
  statusCode : Nat
  isDuplicate : Bool
  inspectionId : Nat
  completedAt : Option Nat
  completionPercentage : Nat
deriving DecidableEq, Repr

/-- `POST /api/inspections` of the Mongo variant: when an
`idempotency-key` header is present and a record with that key exists,
reply 200 with `isDuplicate: true` and the existing record's data,
performing no write of any kind; otherwise create a new document with
status `submitted` and save it (which appends the single `created`
audit entry).  The handler enqueues no delivery job in either branch. -/
def postInspection (db : MongoDb) (freshId : Nat) (key : Option String)
    (data : Payload) (now : Nat) : MongoDb × PostResult :=
  match checkDuplicateSubmission db key with
  | some existing =>
      (db,
       { statusCode := 200
         isDuplicate := true
         inspectionId := existing.inspectionId
         completedAt := existing.completedAt
         completionPercentage := completionPercentage existing.inspectionPoints })
  | none =>
      let saved := saveNew freshId data key RStatus.submitted now
      ({ records := db.records ++ [saved] },
       { statusCode := 201
         isDuplicate := false
         inspectionId := saved.inspectionId
         completedAt := saved.completedAt
         completionPercentage := completionPercentage saved.inspectionPoints })

/-- An API error as thrown by the route handlers (`APIError(message,
statusCode)`); throwing aborts the handler before any save. -/
structure APIError where
  message : String
  statusCode : Nat
deriving DecidableEq, Repr

/-- The allowed-transition table of `validateStatusTransition`:
`draft → [submitted, archived]`, `submitted → [archived]`,
`archived → []`. -/
def validTransitions : RStatus → List RStatus
  | RStatus.draft => [RStatus.submitted, RStatus.archived]
  | RStatus.submitted => [RStatus.archived]
  | RStatus.archived => []

/-- `validateStatusTransition(currentStatus, newStatus)`: a same-state
transition is always allowed (no-op), otherwise the target must appear
in the table. -/
def validateStatusTransition (currentStatus newStatus : RStatus) : Bool :=
  if currentStatus = newStatus then true
  else (validTransitions currentStatus).contains newStatus

/-- The message of the invalid-transition error, naming the attempted
source and target. -/
def invalidTransitionMsg (fromStatus toStatus : RStatus) : String :=
  "Invalid status transition from \x27" ++ statusString fromStatus ++
    "\x27 to \x27" ++ statusString toStatus ++ "\x27"

/-- `Object.assign(inspection, inspectionData)` restricted to the fields
a claim can observe: a provided status or checklist replaces the stored
one, absent fields leave the document unchanged.  `completedAt` is never
among the assigned fields (Joi strips unknown keys). -/
def applyAssign (doc : Inspection) (reqStatus : Option RStatus)
    (reqPoints : Option (List InspectionPoint)) : Inspection :=
  { doc with
      status := reqStatus.getD doc.status
      inspectionPoints := reqPoints.getD doc.inspectionPoints }

/-- The update logic written inside the `PUT /api/inspections/:id`
handler on a found document, parameterised by the `status` field of
`inspectionData`: if a status is present and differs from the stored
one, it must pass `validateStatusTransition`, else the handler throws
the invalid-transition `APIError` (code 400) before any save; otherwise
the payload is assigned onto the document and it is saved (pre-save hook
with `isNew = false`).  In the deployed Mongo route the
`validateRequest` middleware strips `status` from the body (the Joi
schema declares no such field and uses `stripUnknown: true`), so the
route always invokes this logic with `reqStatus = none` — see
`putRouteMongo`; the `some s` branch is the handler's written logic,
exercised only at the document level (e.g. the Mongoose-level update
chains of the `completedAt` claims). -/
def putUpdate (doc : Inspection) (reqStatus : Option RStatus)
    (reqPoints : Option (List InspectionPoint)) (now : Nat) :
    Except APIError Inspection :=
  match reqStatus with
  | some s =>
      if s ≠ doc.status ∧ validateStatusTransition doc.status s = false then
        Except.error { message := invalidTransitionMsg doc.status s, statusCode := 400 }
      else
        Except.ok (preSave false (applyAssign doc (some s) reqPoints) now)
  | none => Except.ok (preSave false (applyAssign doc none reqPoints) now)

/-- The raw JSON body a client may send to the PUT route: the Joi
`inspectionSchema` fields plus a `status` key, which that schema does
not declare. -/
structure RawBody where
  truckNumber : String
  trailerNumber : String
  inspectionPoints : List InspectionPoint
  notes : String
  status : Option RStatus
deriving DecidableEq, Repr

/-- The `validateRequest(inspectionSchema)` middleware of the Mongo
variant: Joi validates with `stripUnknown: true`, and since
`inspectionSchema` declares no `status` field, any supplied `status` is
dropped — `req.validatedBody` never carries one. -/
def validateBody (raw : RawBody) : Payload :=
  { truckNumber := raw.truckNumber
    trailerNumber := raw.trailerNumber
    inspectionPoints := raw.inspectionPoints
    notes := raw.notes }

/-- `PUT /api/inspections/:id` of the Mongo variant, middleware
included: the body is validated (stripping the undeclared `status`
key), the record is looked up (404 when absent), and the handler runs
with `inspectionData.status = undefined` — i.e. `putUpdate` with
`reqStatus = none` — so the transition-validation guard is never
entered and `Object.assign` never changes the stored status. -/
def putRouteMongo (db : MongoDb) (id : Nat) (raw : RawBody) (now : Nat) :
    MongoDb × Except APIError Inspection :=
  let body := validateBody raw
  match db.records.find? (fun r => decide (r.inspectionId = id)) with
  | none => (db, Except.error { message := "Inspection not found", statusCode := 404 })
  | some doc =>
      match putUpdate doc none (some body.inspectionPoints) now with
      | Except.error e => (db, Except.error e)
      | Except.ok d =>
          ({ records := db.records.map (fun r => if r.inspectionId = id then d else r) },
           Except.ok d)

/-! ## SQLite variant: records, PUT and the behaviour of DELETE -/

/-- One row of the SQLite `inspections` table (fields not observed by any
claim are omitted; they are never touched by the modelled operations). -/
structure SqlInspection where
  inspectionId : Nat
  truckNumber : String
  inspectionPoints : List InspectionPoint
  completionPercentage : Nat
  status : RStatus
  createdAt : Nat
deriving DecidableEq, Repr

/-- The SQLite database of the nodejs backend: the `inspections` table
and the `email_queue` table live in the same database file. -/
structure SqliteDb where
  inspections : List SqlInspection
  email_queue : QueueState
deriving DecidableEq, Repr

/-- `PUT /api/inspections/:id` of the SQLite variant: the record is
looked up (404 when absent) and the UPDATE statement writes the body's
fields with `truckNumber || inspection.truckNumber` and
`status || inspection.status` fallbacks and a recomputed completion
percentage — with no call to any transition validation: whatever status
the body carries is stored. -/
def putRouteSqlite (db : SqliteDb) (id : Nat) (truckNumber : Option String)
    (points : List InspectionPoint) (status : Option RStatus) (_now : Nat) :
    SqliteDb × Except APIError Unit :=
  match db.inspections.find? (fun r => decide (r.inspectionId = id)) with
  | none => (db, Except.error { message := "Inspection not found", statusCode := 404 })
  | some insp =>
      ({ db with
          inspections := db.inspections.map (fun r =>
            if r.inspectionId = id then
              { r with
                  truckNumber := truckNumber.getD insp.truckNumber
                  inspectionPoints := points
                  completionPercentage := completionPercentage points
                  status := status.getD insp.status }
            else r) },
       Except.ok ())

/-- Whether some `email_queue` row references the given inspection id
(whatever the job's status). -/
def hasDependentJobs (db : SqliteDb) (id : Nat) : Bool :=
  db.email_queue.any (fun j => decide (j.inspectionId = id))

/-- `DELETE /api/inspections/:id` of the SQLite variant: 404 when the
record is absent; otherwise `DELETE FROM inspections WHERE inspectionId
= ?` runs against a database opened with `PRAGMA foreign_keys = ON`
where `email_queue.inspectionId REFERENCES inspections(inspectionId)`
with no `ON DELETE` action (NO ACTION).  When any queue row references
the record the DELETE therefore throws a foreign-key constraint error,
which the route's catch converts to `APIError("Failed to delete
inspection", 500)` — nothing is deleted; only a record with no
referencing jobs is actually removed.  In no case does the route issue
a statement against `email_queue`. -/
def deleteInspectionRoute (db : SqliteDb) (id : Nat) : SqliteDb × Except APIError Unit :=
  match db.inspections.find? (fun r => decide (r.inspectionId = id)) with
  | none => (db, Except.error { message := "Inspection not found", statusCode := 404 })
  | some _ =>
      if hasDependentJobs db id then
        (db, Except.error { message := "Failed to delete inspection", statusCode := 500 })
      else
        ({ db with
            inspections := db.inspections.filter (fun r => decide (¬ r.inspectionId = id)) },
         Except.ok ())

/-! ## Ordering relation and concrete sample data used in witnesses and
counterexamples -/

/-- Oldest-first ordering on jobs (by `createdAt`). -/
def jobLE (a b : EmailJob) : Prop := a.createdAt ≤ b.createdAt

/-- A checklist item with the given id and checked flag. -/
def mkPoint (i : Nat) (c : Bool) : InspectionPoint :=
  { id := i, title := "point", description := "item", checked := c }

/-- A checklist of 18 items of which the first 9 are checked (the
scenario of the specification). -/
def pts18 : List InspectionPoint :=
  (List.range 18).map (fun i => mkPoint (i + 1) (decide (i < 9)))

/-- A sample client payload. -/
def samplePayload : Payload :=
  { truckNumber := "T-100"
    trailerNumber := "TR-9"
    inspectionPoints := [mkPoint 1 true]
    notes := "" }

/-- A queued delivery job in status `pending` with `retryCount = 0`,
referencing inspection 7. -/
def pendingJob : EmailJob :=
  { emailId := 1
    inspectionId := 7
    recipientEmail := "ops@example.com"
    subject := "CTPAT Inspection Report"
    body := "report"
    status := JobStatus.pending
    metadata := none
    createdAt := 100
    retryCount := 0
    error := none
    sentAt := none }

/-- A delivery job already in the terminal status `sent`. -/
def sentJob : EmailJob :=
  { pendingJob with emailId := 2, status := JobStatus.sent, sentAt := some 150 }

/-- A stored SQLite inspection row with id 7. -/
def sampleRecord : SqlInspection :=
  { inspectionId := 7
    truckNumber := "T-100"
    inspectionPoints := [mkPoint 1 true]
    completionPercentage := 100
    status := RStatus.draft
    createdAt := 50 }

/-- A SQLite database holding record 7 and one pending delivery job that
references it. -/
def sampleDb : SqliteDb :=
  { inspections := [sampleRecord], email_queue := [pendingJob] }

/-- A SQLite database holding record 7 and no queue jobs. -/
def cleanDb : SqliteDb := { inspections := [sampleRecord], email_queue := [] }

/-- A Mongo store holding one record (id 4) in status `archived`. -/
def archivedDbMongo : MongoDb :=
  { records := [saveNew 4 samplePayload none RStatus.archived 3] }

/-- A raw PUT body requesting the out-of-table transition target
`draft`. -/
def rawDraftBody : RawBody :=
  { truckNumber := "T-100"
    trailerNumber := "TR-9"
    inspectionPoints := [mkPoint 1 true]
    notes := ""
    status := some RStatus.draft }

/-- A SQLite database holding one record (id 8) in status `archived`
and no queue jobs. -/
def archivedDbSql : SqliteDb :=
  { inspections := [{ sampleRecord with inspectionId := 8, status := RStatus.archived }]
    email_queue := [] }

/-! ## Supporting lemmas -/

/-- Membership is preserved by the insertion step of the sort. -/
theorem mem_insertByCreatedAt (a j : EmailJob) (l : List EmailJob) :
    a ∈ insertByCreatedAt j l ↔ a = j ∨ a ∈ l := by
  induction l with
  | nil => simp [insertByCreatedAt]
  | cons k ks ih =>
      by_cases h : j.createdAt ≤ k.createdAt
      · simp [insertByCreatedAt, h]
      · simp [insertByCreatedAt, h, ih]
        tauto

/-- The insertion step preserves sortedness by `createdAt`. -/
theorem pairwise_insertByCreatedAt (j : EmailJob) (l : List EmailJob)
    (hl : l.Pairwise jobLE) : (insertByCreatedAt j l).Pairwise jobLE := by
  induction l with
  | nil => simp [insertByCreatedAt]
  | cons k ks ih =>
      rcases List.pairwise_cons.mp hl with ⟨hk, hks⟩
      by_cases h : j.createdAt ≤ k.createdAt
      · simp only [insertByCreatedAt, if_pos h]
        refine List.pairwise_cons.mpr ⟨?_, hl⟩
        intro b hb
        rcases List.mem_cons.mp hb with rfl | hb
        · exact h
        · exact le_trans h (hk b hb)
      · simp only [insertByCreatedAt, if_neg h]
        refine List.pairwise_cons.mpr ⟨?_, ih hks⟩
        intro b hb
        rcases (mem_insertByCreatedAt b j ks).mp hb with rfl | hb
        · exact le_of_not_le h
        · exact hk b hb

/-- Sorting by `createdAt` preserves membership. -/
theorem mem_sortByCreatedAt (a : EmailJob) (l : List EmailJob) :
    a ∈ sortByCreatedAt l ↔ a ∈ l := by
  induction l with
  | nil => simp [sortByCreatedAt]
  | cons j js ih => simp [sortByCreatedAt, mem_insertByCreatedAt, ih]

/-- The sort produces a list ordered oldest-first. -/
theorem pairwise_sortByCreatedAt (l : List EmailJob) :
    (sortByCreatedAt l).Pairwise jobLE := by
  induction l with
  | nil => simp [sortByCreatedAt]
  | cons j js ih => exact pairwise_insertByCreatedAt j _ ih

/-- Every job returned by `getPendingEmails` is a job of the queue whose
status was `pending`. -/
theorem mem_getPendingEmails (st : QueueState) (n : Nat) (j : EmailJob)
    (h : j ∈ getPendingEmails st n) : j ∈ st ∧ j.status = JobStatus.pending := by
  have h1 : j ∈ sortByCreatedAt (st.filter (fun j => decide (j.status = JobStatus.pending))) :=
    List.mem_of_mem_take h
  have h2 := (mem_sortByCreatedAt j _).mp h1
  have h3 := List.mem_filter.mp h2
  exact ⟨h3.1, of_decide_eq_true h3.2⟩

/-- `getPendingEmails` returns an oldest-first list. -/
theorem pairwise_getPendingEmails (st : QueueState) (n : Nat) :
    (getPendingEmails st n).Pairwise jobLE :=
  (pairwise_sortByCreatedAt _).sublist (List.take_sublist _ _)

/-- The stored completion value is JS `Math.round((checked/total)*100)`:
for a non-empty checklist it equals `⌊100 * k / n + 1/2⌋`. -/
theorem completionPercentage_eq_floor (points : List InspectionPoint)
    (h : points.length ≠ 0) :
    completionPercentage points =
      ⌊(100 * (countChecked points : ℚ) / (points.length : ℚ) + 1 / 2 : ℚ)⌋₊ := by
  unfold completionPercentage
  rw [if_neg h]
  have hn : ((points.length : ℚ)) ≠ 0 := Nat.cast_ne_zero.mpr h
  have hq : (100 * (countChecked points : ℚ) / (points.length : ℚ) + 1 / 2 : ℚ)
      = ((200 * countChecked points + points.length : ℕ) : ℚ)
          / ((2 * points.length : ℕ) : ℚ) := by
    push_cast
    field_simp
    ring
  rw [hq, Nat.floor_div_nat, Nat.floor_natCast]

/-! ## Claim theorems -/

/-- C1: evaluation of the code at the failing input.  A pending job with
`retryCount = 0` fails once: `markFailed` increments `retryCount` to 1
(below the ceiling of 3) but sets the status to the terminal `failed`
instead of returning the job to `pending`, and the job is absent from
every subsequent `claimBatch` (`getPendingEmails`) result — it is never
retried, contradicting the claim (and the dispatcher comment `Only retry
up to 3 times`, whose below-ceiling branch is thereby dead code). -/
theorem C1_markFailed_terminal_below_ceiling :
    pendingJob.retryCount = 0 ∧
    markFailed [pendingJob] 1 "connect ECONNREFUSED" =
      [{ pendingJob with
           status := JobStatus.failed
           error := some "connect ECONNREFUSED"
           retryCount := 1 }] ∧
    getPendingEmails (markFailed [pendingJob] 1 "connect ECONNREFUSED") 10 = [] := by
  refine ⟨rfl, ?_, ?_⟩ <;> rfl

/-- C2, counterexample: `claimBatch` is the SELECT `getPendingEmails`
and writes nothing.  On a queue holding one pending job, the claim
returns the job, the post-call state is unchanged (the job is still
`pending`, not `in_flight`), and a second claim without intervening
status changes returns the very same job — refuting both the
`in_flight` transition and the disjointness of successive claims. -/
theorem C2_counterexample :
    (claimBatch [pendingJob] 1).1 = [pendingJob] ∧
    (claimBatch [pendingJob] 1).2 = [pendingJob] ∧
    pendingJob.status = JobStatus.pending ∧
    pendingJob.status ≠ JobStatus.in_flight ∧
    (claimBatch ((claimBatch [pendingJob] 1).2) 1).1 = [pendingJob] := by
  refine ⟨rfl, rfl, rfl, by decide, rfl⟩

/-- C2, amended: `claimBatch(max)` returns at most `max` jobs, each of
which is a job of the queue that had status `pending` at the time of the
call, ordered oldest-first by `createdAt`; the call is a pure read — the
queue state after it equals the state before, the returned jobs stay
`pending` (no `in_flight` transition exists in the code), and successive
claims therefore return the same jobs rather than disjoint sets. -/
theorem C2_claimBatch_pending_fifo_read_only (st : QueueState) (max : Nat) :
    (claimBatch st max).1.length ≤ max ∧
    (∀ j ∈ (claimBatch st max).1, j ∈ st ∧ j.status = JobStatus.pending) ∧
    ((claimBatch st max).1.Pairwise jobLE) ∧
    (claimBatch st max).2 = st := by
  refine ⟨List.length_take_le _ _, ?_, pairwise_getPendingEmails st max, rfl⟩
  intro j hj
  exact mem_getPendingEmails st max j hj

/-- C2, witness: the amended theorem applied to the one-job queue. -/
theorem C2_witness :
    pendingJob ∈ [pendingJob] ∧ pendingJob.status = JobStatus.pending ∧
    (claimBatch [pendingJob] 1).2 = [pendingJob] := by
  have h := C2_claimBatch_pending_fifo_read_only [pendingJob] 1
  have hm := h.2.1 pendingJob (by decide)
  exact ⟨hm.1, hm.2, h.2.2.2⟩

/-- C7, counterexample: `markFailed` carries no condition on the current
status, so invoking it on a job already in the terminal status `sent`
moves that job to `failed` — a subsequent queue operation does change a
sent job's status, refuting the claim as stated. -/
theorem C7_counterexample :
    sentJob.status = JobStatus.sent ∧
    markFailed [sentJob] 2 "late failure" =
      [{ sentJob with
           status := JobStatus.failed
           error := some "late failure"
           retryCount := sentJob.retryCount + 1 }] ∧
    JobStatus.failed ≠ JobStatus.sent := by
  refine ⟨rfl, rfl, by decide⟩

/-- C7, amended: a job in a terminal status (`sent`, or `failed`) is
never returned by `claimBatch` for processing — only `pending` jobs are
— so the dispatcher never re-claims it; however `markSent` and
`markFailed` themselves do not guard on the current status, and calling
them directly on a terminal job does change its status (see the
counterexample). -/
theorem C7_terminal_never_reclaimed (st : QueueState) (max : Nat) (j : EmailJob)
    (h : j ∈ (claimBatch st max).1) : j.status = JobStatus.pending :=
  (mem_getPendingEmails st max j h).2

/-- C7, witness: the amended theorem applied to the one-job queue. -/
theorem C7_witness : pendingJob.status = JobStatus.pending :=
  C7_terminal_never_reclaimed [pendingJob] 1 pendingJob (by decide)

/-- C8: when SMTP reports itself unconfigured at the start of the run,
`processQueuedEmails` short-circuits with `{sent: 0, failed: 0}` and an
unchanged queue — no job is claimed, no `retryCount` incremented, for
every batch size, send-outcome oracle and queue state. -/
theorem C8_unconfigured_short_circuit (sendOk : Nat → Bool) (errText : Nat → String)
    (limit : Nat) (st : QueueState) (now : Nat) :
    processQueuedEmails false sendOk errText limit st now =
      (st, { success := false, sent := 0, failed := 0 }) := rfl

/-- C10: the storage `try/catch` of the queue readers swallows every
error: a throwing storage layer makes `getPendingEmails` return the
empty list and `getQueueStats` all-zero counts — exactly the results of
a genuinely empty queue, so the caller cannot tell the two apart. -/
theorem C10_storage_errors_swallowed (e : String) (limit : Nat) :
    getPendingEmailsSafe (Except.error e) limit = [] ∧
    getPendingEmailsSafe (Except.error e) limit = getPendingEmailsSafe (Except.ok []) limit ∧
    getQueueStatsSafe (Except.error e) = { pending := 0, sent := 0, failed := 0, total := 0 } ∧
    getQueueStatsSafe (Except.error e) = getQueueStatsSafe (Except.ok []) := by
  refine ⟨rfl, ?_, rfl, rfl⟩
  simp [getPendingEmailsSafe, getPendingEmails, sortByCreatedAt, List.take_nil]

/-- C10, witness: the theorem at a concrete error and limit. -/
theorem C10_witness :
    getPendingEmailsSafe (Except.error "db locked") 10 = [] :=
  (C10_storage_errors_swallowed "db locked" 10).1

/-- C9, counterexample: for the specification scenario — a checklist of
18 items of which 9 are checked — the stored derived completion value is
`Math.round((9/18)*100) = 50`, not the exact rational `1/2 = 0.5`, and
it does not lie in `[0, 1]`. -/
theorem C9_counterexample :
    completionPercentage pts18 = 50 ∧
    ((completionPercentage pts18 : ℚ) ≠ 1 / 2) ∧
    ¬ ((completionPercentage pts18 : ℚ) ≤ 1) := by
  have h : completionPercentage pts18 = 50 := by decide
  refine ⟨h, ?_, ?_⟩ <;> rw [h] <;> norm_num

/-- C9, amended: the stored derived completion value is the rounded
percentage `Math.round(100 * k / n)`, an integer lying in `[0, 100]`
(for a non-empty checklist it equals `⌊100 * k / n + 1/2⌋`, see
`completionPercentage_eq_floor`); creating a record with a checklist of
18 items, 9 of them checked, yields the value 50. -/
theorem C9_rounded_percentage_bounds :
    (∀ points : List InspectionPoint, completionPercentage points ≤ 100) ∧
    completionPercentage pts18 = 50 := by
  constructor
  · intro points
    unfold completionPercentage
    by_cases h : points.length = 0
    · simp [h]
    · rw [if_neg h]
      have hk : countChecked points ≤ points.length := List.length_filter_le _ _
      have hn : 0 < points.length := Nat.pos_of_ne_zero h
      have hlt : (200 * countChecked points + points.length) / (2 * points.length) < 101 := by
        rw [Nat.div_lt_iff_lt_mul (by omega)]
        omega
      omega
  · decide

/-- C5, counterexample: a record created in status `draft` already has
`completedAt` set — the Mongoose schema default `Date.now` stamps it at
construction time (here 5), before any transition to `submitted`,
refuting the claim that it is first set at the `submitted` transition. -/
theorem C5_counterexample :
    (saveNew 1 samplePayload none RStatus.draft 5).status = RStatus.draft ∧
    (saveNew 1 samplePayload none RStatus.draft 5).completedAt = some 5 := by
  exact ⟨rfl, rfl⟩

/-- C5, amended: `completedAt` is set exactly once, at record creation
(the schema default `Date.now`), whatever the initial status — even for
a record created in `draft`; no later operation changes it: the pre-save
stamp-on-submitted branch fires only when `completedAt` is unset, which
never holds for a schema-created record, and updates cannot write the
field (Joi strips unknown keys).  In particular the chain
`draft → submitted → archived → archived` (final step a no-op) leaves
`completedAt` equal to its creation value. -/
theorem C5_completedAt_set_at_creation_then_immutable
    (id : Nat) (data : Payload) (key : Option String) (t0 t1 t2 t3 : Nat) :
    ∃ d1 d2 d3 : Inspection,
      putUpdate (saveNew id data key RStatus.draft t0) (some RStatus.submitted) none t1
        = Except.ok d1 ∧
      putUpdate d1 (some RStatus.archived) none t2 = Except.ok d2 ∧
      putUpdate d2 (some RStatus.archived) none t3 = Except.ok d3 ∧
      (saveNew id data key RStatus.draft t0).status = RStatus.draft ∧
      (saveNew id data key RStatus.draft t0).completedAt = some t0 ∧
      d1.status = RStatus.submitted ∧
      d1.completedAt = some t0 ∧ d2.completedAt = some t0 ∧ d3.completedAt = some t0 := by
  refine ⟨_, _, _, rfl, rfl, rfl, ?_, ?_, ?_, ?_, ?_, ?_⟩ <;>
    simp [saveNew, newInspection, preSave, applyAssign, putUpdate,
      validateStatusTransition, validTransitions]

/-- Unfolding equation of `postInspection` for a fresh idempotency key:
the create branch runs. -/
theorem postInspection_fresh (db : MongoDb) (id : Nat) (k : String) (p : Payload) (t : Nat)
    (h : checkDuplicateSubmission db (some k) = none) :
    postInspection db id (some k) p t =
      ({ records := db.records ++ [saveNew id p (some k) RStatus.submitted t] },
       { statusCode := 201
         isDuplicate := false
         inspectionId := (saveNew id p (some k) RStatus.submitted t).inspectionId
         completedAt := (saveNew id p (some k) RStatus.submitted t).completedAt
         completionPercentage :=
           completionPercentage (saveNew id p (some k) RStatus.submitted t).inspectionPoints }) := by
  unfold postInspection
  rw [h]

/-- Unfolding equation of `postInspection` when a record with the key
exists: the duplicate branch runs and writes nothing. -/
theorem postInspection_dup (db : MongoDb) (id : Nat) (k : String) (p : Payload) (t : Nat)
    (r : Inspection) (h : checkDuplicateSubmission db (some k) = some r) :
    postInspection db id (some k) p t =
      (db,
       { statusCode := 200
         isDuplicate := true
         inspectionId := r.inspectionId
         completedAt := r.completedAt
         completionPercentage := completionPercentage r.inspectionPoints }) := by
  unfold postInspection
  rw [h]

/-- C3: submitting twice under the same idempotency key (with identical
or different payloads) stores exactly one record.  Provided the key is
fresh, the first call creates and stores one record (with its single
`created` audit entry) and returns `isDuplicate = false`; the second
call finds the existing record, returns it with `isDuplicate = true`,
and has no side effects at all — the store after the second call equals
the store after the first, so no second record, no additional audit
entry and (the handler enqueues nothing in either branch) no delivery
job. -/
theorem C3_idempotent_submission (db : MongoDb) (k : String) (p1 p2 : Payload)
    (id1 id2 t1 t2 : Nat)
    (hfresh : checkDuplicateSubmission db (some k) = none) :
    (postInspection (postInspection db id1 (some k) p1 t1).1 id2 (some k) p2 t2).1
      = (postInspection db id1 (some k) p1 t1).1 ∧
    (postInspection (postInspection db id1 (some k) p1 t1).1 id2 (some k) p2 t2).2.isDuplicate
      = true ∧
    ((postInspection db id1 (some k) p1 t1).1.records.filter
        (fun r => decide (r.idempotencyKey = some k))).length = 1 ∧
    (postInspection db id1 (some k) p1 t1).2.isDuplicate = false := by
  have hkey : (saveNew id1 p1 (some k) RStatus.submitted t1).idempotencyKey = some k := rfl
  have hpred :
      (fun r : Inspection => decide (r.idempotencyKey = some k))
        (saveNew id1 p1 (some k) RStatus.submitted t1) = true := by
    simp [hkey]
  have hnone : db.records.find? (fun r => decide (r.idempotencyKey = some k)) = none := hfresh
  have hfirst := postInspection_fresh db id1 k p1 t1 hfresh
  have hdup2 :
      checkDuplicateSubmission (postInspection db id1 (some k) p1 t1).1 (some k)
        = some (saveNew id1 p1 (some k) RStatus.submitted t1) := by
    rw [hfirst]
    show (db.records ++ [saveNew id1 p1 (some k) RStatus.submitted t1]).find?
        (fun r => decide (r.idempotencyKey = some k)) = _
    rw [List.find?_append, hnone, Option.none_or]
    simp [List.find?, hpred]
  have hsecond := postInspection_dup (postInspection db id1 (some k) p1 t1).1 id2 k p2 t2
    (saveNew id1 p1 (some k) RStatus.submitted t1) hdup2
  refine ⟨?_, ?_, ?_, ?_⟩
  · rw [hsecond]
  · rw [hsecond]
  · rw [hfirst]
    show ((db.records ++ [saveNew id1 p1 (some k) RStatus.submitted t1]).filter
        (fun r => decide (r.idempotencyKey = some k))).length = 1
    rw [List.filter_append]
    have hnil : db.records.filter (fun r => decide (r.idempotencyKey = some k)) = [] :=
      List.filter_eq_nil_iff.mpr (List.find?_eq_none.mp hnone)
    rw [hnil]
    simp [List.filter, hpred]
  · rw [postInspection_fresh db id1 k p1 t1 hfresh]

/-- C3, witness: the theorem applied to the empty store with a concrete
key and two different payloads. -/
theorem C3_witness :
    (postInspection
        (postInspection { records := [] } 1 (some "key-1") samplePayload 10).1
        2 (some "key-1")
        { samplePayload with truckNumber := "T-200" } 20).2.isDuplicate = true ∧
    ((postInspection { records := [] } 1 (some "key-1") samplePayload 10).1.records.filter
        (fun r => decide (r.idempotencyKey = some "key-1"))).length = 1 := by
  have h := C3_idempotent_submission { records := [] } "key-1" samplePayload
    { samplePayload with truckNumber := "T-200" } 1 2 10 20 rfl
  exact ⟨h.2.1, h.2.2.1⟩

/-- C4: evaluation of the code at the failing input.  The transition
table exists in the source (`validateStatusTransition` rejects
`archived → draft`, as the claim demands), but no route enforces it: in
the Mongo variant the `validateRequest(inspectionSchema)` middleware
strips the undeclared `status` key (`stripUnknown: true`), so a PUT
requesting `archived → draft` succeeds with 200 — no `InvalidTransition`
error is ever emitted, the stored status silently stays `archived`; and
in the SQLite variant the PUT handler performs no validation at all, so
the same request succeeds and actually stores `draft` on the archived
record. -/
theorem C4_transition_table_unenforced :
    validateStatusTransition RStatus.archived RStatus.draft = false ∧
    (archivedDbMongo.records.map (fun r => r.status) = [RStatus.archived]) ∧
    (∃ d, (putRouteMongo archivedDbMongo 4 rawDraftBody 9).2 = Except.ok d ∧
       d.status = RStatus.archived) ∧
    ((putRouteMongo archivedDbMongo 4 rawDraftBody 9).1.records.map (fun r => r.status)
       = [RStatus.archived]) ∧
    (putRouteSqlite archivedDbSql 8 none [mkPoint 1 true] (some RStatus.draft) 9).2
      = Except.ok () ∧
    ((putRouteSqlite archivedDbSql 8 none [mkPoint 1 true] (some RStatus.draft) 9).1.inspections.map
        (fun r => r.status) = [RStatus.draft]) := by
  refine ⟨rfl, rfl, ⟨_, rfl, rfl⟩, rfl, rfl, rfl⟩

/-- C6, counterexample: deleting record 7 while a pending delivery job
references it does not remove the jobs and then the record — the
enforced foreign key (`PRAGMA foreign_keys = ON`, `email_queue`
referencing `inspections` with NO ACTION) makes the DELETE throw, the
route replies 500 `Failed to delete inspection`, and nothing is removed:
the record survives, the job survives, and the next `claimBatch`
(`getPendingEmails`) still returns the job — refuting the claimed
cascade removal. -/
theorem C6_counterexample :
    pendingJob.inspectionId = 7 ∧
    (deleteInspectionRoute sampleDb 7).2 =
      Except.error { message := "Failed to delete inspection", statusCode := 500 } ∧
    (deleteInspectionRoute sampleDb 7).1 = sampleDb ∧
    getPendingEmails (deleteInspectionRoute sampleDb 7).1.email_queue 10 = [pendingJob] := by
  refine ⟨rfl, rfl, rfl, rfl⟩

/-- C6, amended: `DELETE /api/inspections/:id` never removes or cancels
a delivery job — the `email_queue` table is unchanged in every case; and
far from cascading, the delete is restricted by the enforced foreign
key: when any job (whatever its status) references the record, the
route fails with a 500 error and removes nothing, so the record and its
jobs survive and pending ones continue to be returned by `claimBatch`.
Only a record with no referencing jobs is actually deleted, which is
why no job ever references a missing record — by restriction, not by
cascade. -/
theorem C6_delete_restricted_not_cascaded (db : SqliteDb) (id : Nat) :
    (deleteInspectionRoute db id).1.email_queue = db.email_queue ∧
    (hasDependentJobs db id = true → (deleteInspectionRoute db id).1 = db) ∧
    ((deleteInspectionRoute db id).2 = Except.ok () →
       hasDependentJobs db id = false ∧
       ∀ r ∈ (deleteInspectionRoute db id).1.inspections, r.inspectionId ≠ id) := by
  unfold deleteInspectionRoute
  cases hf : db.inspections.find? (fun r => decide (r.inspectionId = id)) with
  | none =>
      exact ⟨rfl, fun _ => rfl, fun h => absurd h (by simp)⟩
  | some found =>
      by_cases hd : hasDependentJobs db id = true
      · rw [if_pos hd]
        exact ⟨rfl, fun _ => rfl, fun h => absurd h (by simp)⟩
      · rw [if_neg hd]
        refine ⟨rfl, fun h => absurd h hd, fun _ => ⟨Bool.not_eq_true _ ▸ hd, ?_⟩⟩
        intro r hr
        have := (List.mem_filter.mp hr).2
        simpa using this

/-- C6, witness: the amended theorem applied at the sample database with
a dependent job (nothing deleted) and at the job-free database (record
removed). -/
theorem C6_witness :
    (deleteInspectionRoute sampleDb 7).1 = sampleDb ∧
    hasDependentJobs cleanDb 7 = false ∧
    (∀ r ∈ (deleteInspectionRoute cleanDb 7).1.inspections, r.inspectionId ≠ 7) := by
  have h1 := (C6_delete_restricted_not_cascaded sampleDb 7).2.1 (by decide)
  have h2 := (C6_delete_restricted_not_cascaded cleanDb 7).2.2 rfl
  exact ⟨h1, h2.1, h2.2⟩

end Ctpat
